import Mathlib

/-!
Verification development for the Xiangqi (Chinese-chess-like) rule engine of
this repository.  The engine lives in `public/util/AbstractGame.ts`; the file
below gives a shallow embedding of its data model and of the operations
`interpretMove`, `validateMove`, `makeMove`, `recallMove`, `getNextPlayer`,
`isGameOver` and `toString`, followed by theorems settling the specification
claims about them.

Modelling conventions:
* JS numbers that the engine actually stores in the grid are the piece
  encodings `team*10 + type` and `0` (source comments, lines 33-37), all
  nonnegative integers, so grid cells are `Nat`; coordinates produced by
  `interpretMove` can be negative (`10 - rank`), so they are `Int`, as are
  `_currentPlayer` and `_winner`.
* `Math.floor(v/10)` on a nonnegative cell value is `Nat` division.
* A thrown JS `Error` is modelled by the `fault` outcome carrying the message;
  the `console.log` rejection branch of `makeMove` is the `rejected` outcome,
  and the applied branch is `applied`.
* Move strings that decode with `NaN` components (too short, or non-digit rank
  characters) make the JS code fault at the subsequent array accesses; they
  are modelled uniformly by `interpretMove` returning `none` and the callers
  returning a `fault` outcome.  Every claim below quantifies only over fully
  decodable move strings, so this branch is never exercised by a theorem.
* JS array reads and writes are modelled by `getCell`/`setCell`, total
  functions returning a default (resp. leaving the grid unchanged) outside
  the actual list extent.  All accesses performed by the source functions
  happen at indices that passed the `validateMove` bounds check against the
  fixed 10x9 extent, where `List.get?`/`List.set` agree with the JS arrays.
-/

/-- The `Move` record of the source: decoded start/end coordinates
(`sr`/`sc` = start row/column, `er`/`ec` = end row/column). -/
structure Move where
  sr : Int
  sc : Int
  er : Int
  ec : Int
deriving DecidableEq

/-- The observable outcome of a `makeMove` call: the move was validated and
applied; or it was rejected (the source logs "Move not accepted."); or a JS
`Error`/`TypeError` propagated out of the call (the source throws). -/
inductive Outcome where
  | applied : Outcome
  | rejected : Outcome
  | fault : String → Outcome
deriving DecidableEq

/-- The observable outcome of a `recallMove` call: the recorded move was
undone; or there was nothing to undo (the source logs "There is no reverse
available."); or a JS error propagated. -/
inductive RecallOutcome where
  | undone : RecallOutcome
  | nothingToUndo : RecallOutcome
  | fault : String → RecallOutcome
deriving DecidableEq

/-- The state of an `AbstractGame` instance: the five mutable fields of the
source class. -/
structure AbstractGame where
  _layout : List (List Nat)
  _currentPlayer : Int
  _lastMove : String
  _lastCaptured : Nat
  _winner : Int
deriving DecidableEq

/-- Reads `_layout[r][c]`.  Total model of the JS array read: outside the
list extent (or at negative indices) it returns the empty encoding `0`; the
source only ever reads at indices that passed the bounds check of
`validateMove` against the fixed 10x9 grid, where this agrees with JS. -/
def getCell (g : List (List Nat)) (r c : Int) : Nat :=
  if 0 ≤ r ∧ 0 ≤ c then ((g[r.toNat]?.getD [])[c.toNat]?).getD 0 else 0

/-- Writes `_layout[r][c] = v`.  Total model of the JS array write: outside
the list extent (or at negative indices) it leaves the grid unchanged; as for
`getCell`, the source only writes at bounds-checked indices. -/
def setCell (g : List (List Nat)) (r c : Int) (v : Nat) : List (List Nat) :=
  if 0 ≤ r ∧ 0 ≤ c then g.set r.toNat ((g[r.toNat]?.getD []).set c.toNat v) else g

/-- The static field `_types = "-RNCGEPKS"` of the source. -/
def _types : String := "-RNCGEPKS"

/-- JS `s.charAt(i)`: the one-character string at index `i`, or `""` out of
range. -/
def charAt (s : String) (i : Nat) : String :=
  match s.toList[i]? with
  | some c => String.singleton c
  | none => ""

/-- The decimal value of an ASCII digit character code, `none` otherwise. -/
def digitVal (n : Nat) : Option Nat :=
  if 48 ≤ n ∧ n ≤ 57 then some (n - 48) else none

/-- JS `parseInt` restricted to the two-character substrings that
`interpretMove` extracts: parses a maximal leading run of ASCII digits,
`none` (JS `NaN`) if the first character is not a digit.  (The sign and
whitespace handling of full `parseInt` can never be exercised here because a
move string position holding a digit run longer than the claims' two-digit
rank format simply parses by this same rule.) -/
def parseInt2 (a b : Char) : Option Nat :=
  match digitVal a.toNat, digitVal b.toNat with
  | some x, some y => some (10 * x + y)
  | some x, none => some x
  | none, _ => none

/-- JS `String.prototype.toUpperCase` on one ASCII character code. -/
def upperCode (n : Nat) : Nat :=
  if 97 ≤ n ∧ n ≤ 122 then n - 32 else n

namespace AbstractGame

/-- `interpretMove` of the source: `sr = 10 - parseInt(move.substring(0,2))`,
`sc = move.toUpperCase().charCodeAt(2) - 65`, `er = 10 -
parseInt(move.substring(3,5))`, `ec = move.toUpperCase().charCodeAt(5) - 65`.
Only the first six characters are consulted; `none` models the `NaN`
components produced by shorter strings or non-digit rank characters. -/
def interpretMove (move : String) : Option Move :=
  match move.toList with
  | c0 :: c1 :: c2 :: c3 :: c4 :: c5 :: _ =>
    match parseInt2 c0 c1, parseInt2 c3 c4 with
    | some n1, some n2 =>
      some ⟨10 - (n1 : Int), (upperCode c2.toNat : Int) - 65,
            10 - (n2 : Int), (upperCode c5.toNat : Int) - 65⟩
    | _, _ => none
  | _ => none

/-- The message of the `Error` thrown by `validateMove` on out-of-bounds
coordinates. -/
def oobMsg (m : Move) : String :=
  "Illegal Move: Array Notation (" ++ toString m.sr ++ ", " ++ toString m.sc ++
    ") to (" ++ toString m.er ++ ", " ++ toString m.ec ++ ")"

/-- `validateMove` of the source.  It throws (models: `Except.error`) when a
coordinate fails the quadratic bounds test `x*(x-9) > 0` (rows) or
`x*(x-8) > 0` (columns); returns `false` when the start square's team
(`Math.floor(cell/10)`) is not the current player, or when the end square is
neither empty nor an enemy square, or start = end; otherwise returns `true`.
The piece-specific movement rules appear in the source only as a comment
block (lines 174-181) — no code implements them. -/
def validateMove (s : AbstractGame) (move : Move) : Except String Bool :=
  if move.sr * (move.sr - 9) > 0 ∨ move.er * (move.er - 9) > 0 ∨
      move.sc * (move.sc - 8) > 0 ∨ move.ec * (move.ec - 8) > 0 then
    Except.error (oobMsg move)
  else if ¬ ((getCell s._layout move.sr move.sc : Int) / 10 = s._currentPlayer) then
    Except.ok false
  else if ¬ ((getCell s._layout move.er move.ec = 0 ∨
      ¬ ((getCell s._layout move.er move.ec : Int) / 10 = s._currentPlayer)) ∧
      (¬ move.sr = move.er ∨ ¬ move.sc = move.ec)) then
    Except.ok false
  else
    Except.ok true

/-- `getNextPlayer` of the source: `(currentPlayer === 2) ? 1 :
currentPlayer + 1`. -/
def getNextPlayer (s : AbstractGame) : Int :=
  if s._currentPlayer = 2 then 1 else s._currentPlayer + 1

/-- `makeMove` of the source: decode the string, validate, and if validated
record `_lastCaptured`, move the piece, clear the source square, set
`_lastMove`, and advance `_currentPlayer`.  If validation returns false the
state is untouched (`rejected`); if validation throws, the exception
propagates with the state untouched (`fault`).  Note the source consults
neither `_winner` nor any piece-movement rule here. -/
def makeMove (s : AbstractGame) (moveStr : String) : AbstractGame × Outcome :=
  match interpretMove moveStr with
  | none => (s, Outcome.fault "TypeError")
  | some m =>
    match validateMove s m with
    | Except.error e => (s, Outcome.fault e)
    | Except.ok false => (s, Outcome.rejected)
    | Except.ok true =>
      ({ _layout := setCell (setCell s._layout m.er m.ec (getCell s._layout m.sr m.sc))
            m.sr m.sc 0,
         _currentPlayer := getNextPlayer s,
         _lastMove := moveStr,
         _lastCaptured := getCell s._layout m.er m.ec,
         _winner := s._winner }, Outcome.applied)

/-- `recallMove` of the source: if `_lastMove` is non-empty, reinterpret it,
move the piece back, put `_lastCaptured` back on the end square, clear
`_lastCaptured` and `_lastMove` (to `0` and `""`, not to their previous
values), and rewind `_currentPlayer`; otherwise log and do nothing.
`_lastMove` is only ever a string previously accepted by `makeMove`, hence
decodable and in bounds; an undecodable `_lastMove` would make the JS code
throw, modelled by `fault`. -/
def recallMove (s : AbstractGame) : AbstractGame × RecallOutcome :=
  if s._lastMove = "" then (s, RecallOutcome.nothingToUndo)
  else
    match interpretMove s._lastMove with
    | none => (s, RecallOutcome.fault "TypeError")
    | some m =>
      ({ _layout := setCell (setCell s._layout m.sr m.sc (getCell s._layout m.er m.ec))
            m.er m.ec s._lastCaptured,
         _currentPlayer := if s._currentPlayer = 1 then 2 else s._currentPlayer - 1,
         _lastMove := "",
         _lastCaptured := 0,
         _winner := s._winner }, RecallOutcome.undone)

/-- `isGameOver` of the source: `_winner !== -1`. -/
def isGameOver (s : AbstractGame) : Bool :=
  s._winner ≠ -1

/-- One cell of the `toString` dump: a space, then the team digit (or `-` for
team 0), then `_types.charAt(type)`. -/
def renderCell (curr : Nat) : String :=
  " " ++ (if curr / 10 = 0 then "-" else Nat.repr (curr / 10)) ++ charAt _types (curr % 10)

/-- One row of the `toString` dump: the rank label (`" 10"` for the first
row, `" 0" ++ rank` for the others) followed by the nine cells and a
newline.  The inner loop of the source runs `j = 0..8` over
`_layout[i][j]`. -/
def renderRow (i : Nat) (row : List Nat) : String :=
  (if i = 0 then " " else " 0") ++ Nat.repr (10 - i) ++
    String.join ((List.range 9).map fun j => renderCell (row[j]?.getD 0)) ++ "\n"

/-- `toString` of the source: the ten rows (internal row `i` labelled with
rank `10 - i`), then the file-letter footer line. -/
def toString (s : AbstractGame) : String :=
  String.join ((List.range 10).map fun i => renderRow i (s._layout[i]?.getD [])) ++
    "     A  B  C  D  E  F  G  H  I\n"

end AbstractGame

/-- A well-formed grid: exactly 10 rows of 9 cells, the fixed extent of every
layout the engine is constructed with (source comment line 33). -/
def wfGrid (g : List (List Nat)) : Prop :=
  g.length = 10 ∧ ∀ row ∈ g, row.length = 9

instance (g : List (List Nat)) : Decidable (wfGrid g) := by
  unfold wfGrid; infer_instance

/-- A valid piece encoding per the data model (§3 of the specification and
the source comment, lines 34-36): the empty square `0`, or `team*10 + type`
with `type ∈ 1..8`. -/
def validEncoding (v : Nat) : Prop :=
  v = 0 ∨ (1 ≤ v % 10 ∧ v % 10 ≤ 8)

instance (v : Nat) : Decidable (validEncoding v) := by
  unfold validEncoding; infer_instance

/-- The type-letter table exactly as the specification words it: `R,N,C,G,E,P,K,S`
for types 1-8; the placeholder `-` otherwise (in particular in the type
position of an empty square, whose cell value `0` has type component `0`). -/
def specTypeLetter (t : Nat) : String :=
  if t = 1 then "R" else if t = 2 then "N" else if t = 3 then "C"
  else if t = 4 then "G" else if t = 5 then "E" else if t = 6 then "P"
  else if t = 7 then "K" else if t = 8 then "S" else "-"

/-- One square of the dump, as the specification words it: the team digit
(with the `-` placeholder for team 0) followed by the type letter, preceded
by the separating space (alignment is an implementation choice per §6). -/
def specCell (v : Nat) : String :=
  " " ++ (if v / 10 = 0 then "-" else Nat.repr (v / 10)) ++ specTypeLetter (v % 10)

/-- One line of the dump for external rank `r` (`10` down to `1`): the rank
label followed by the nine squares of that rank. -/
def specRankLine (r : Nat) (row : List Nat) : String :=
  (if r = 10 then " " else " 0") ++ Nat.repr r ++
    String.join ((List.range 9).map fun j => specCell (row[j]?.getD 0)) ++ "\n"

/-- The full board dump as the specification words it: ranks listed
descending from 10 to 1 (external rank `r` holds internal row `10 - r`),
followed by the file letters `A`-`I`. -/
def specBoardDump (s : AbstractGame) : String :=
  String.join ((List.range 10).map fun i => specRankLine (10 - i) (s._layout[i]?.getD [])) ++
    "     A  B  C  D  E  F  G  H  I\n"

/-- An all-empty rank. -/
def zrow : List Nat := [0, 0, 0, 0, 0, 0, 0, 0, 0]

/-- Board for C1: the Black Rook (21) on row 0 and the Red King (17) on row 9
share column 4, with the Red Rook (11) at (5,4) as the only shield.  Red (the
current player) moving that Rook off the column leaves Red's own King
attacked along the open file. -/
def c1Before : AbstractGame :=
  { _layout := [[0, 0, 0, 0, 21, 0, 0, 0, 0], zrow, zrow, zrow, zrow,
                [0, 0, 0, 0, 11, 0, 0, 0, 0], zrow, zrow, zrow,
                [0, 0, 0, 0, 17, 0, 0, 0, 0]],
    _currentPlayer := 1, _lastMove := "", _lastCaptured := 0, _winner := -1 }

/-- Board for C2: the Red Cannon (13) at (5,4) and an enemy Rook (21) at
(2,4) on the same column with the two squares strictly between them, (3,4)
and (4,4), empty — a Cannon capture with zero screens. -/
def c2Before : AbstractGame :=
  { _layout := [zrow, zrow, [0, 0, 0, 0, 21, 0, 0, 0, 0], zrow, zrow,
                [0, 0, 0, 0, 13, 0, 0, 0, 0], zrow, zrow, zrow, zrow],
    _currentPlayer := 1, _lastMove := "", _lastCaptured := 0, _winner := -1 }

/-- State for the C3 counterexample: a Red Rook at (8,4) and, crucially, a
non-empty `_lastMove` already recorded from an earlier accepted move. -/
def c3Prev : AbstractGame :=
  { _layout := [zrow, zrow, zrow, zrow, zrow, zrow, zrow, zrow,
                [0, 0, 0, 0, 11, 0, 0, 0, 0], zrow],
    _currentPlayer := 1, _lastMove := "01e02e", _lastCaptured := 0, _winner := -1 }

/-- State for the C3 witness: same board but with no recorded history. -/
def c3Fresh : AbstractGame :=
  { _layout := [zrow, zrow, zrow, zrow, zrow, zrow, zrow, zrow,
                [0, 0, 0, 0, 11, 0, 0, 0, 0], zrow],
    _currentPlayer := 1, _lastMove := "", _lastCaptured := 0, _winner := -1 }

/-- State for the C4 witness: Red to move, square (0,0) empty. -/
def c4State : AbstractGame :=
  { _layout := [zrow, zrow, zrow, zrow, zrow, zrow, zrow, zrow, zrow,
                [0, 0, 0, 0, 11, 0, 0, 0, 0]],
    _currentPlayer := 1, _lastMove := "", _lastCaptured := 0, _winner := -1 }

/-- Board for C5: `_winner` is already set to 1 (the game has ended per
`isGameOver`), and Red still has a movable Rook at (9,4). -/
def c5Before : AbstractGame :=
  { _layout := [zrow, zrow, zrow, zrow, zrow, zrow, zrow, zrow, zrow,
                [0, 0, 0, 0, 11, 0, 0, 0, 0]],
    _currentPlayer := 1, _lastMove := "", _lastCaptured := 0, _winner := 1 }

/-- State for the C6 witness: a 2-player position with Red to move. -/
def c6State : AbstractGame :=
  { _layout := [zrow, zrow, zrow, zrow, zrow, zrow, zrow, zrow,
                [0, 0, 0, 0, 11, 0, 0, 0, 0], zrow],
    _currentPlayer := 1, _lastMove := "", _lastCaptured := 0, _winner := -1 }

/-- State for the C8 witness. -/
def c8State : AbstractGame :=
  { _layout := [zrow, zrow, zrow, zrow, zrow, zrow, zrow, zrow, zrow,
                [0, 0, 0, 0, 11, 0, 0, 0, 0]],
    _currentPlayer := 1, _lastMove := "", _lastCaptured := 0, _winner := -1 }

/-- State for the C9 witness: one piece of every type of both teams. -/
def c9State : AbstractGame :=
  { _layout := [[21, 22, 23, 24, 25, 26, 27, 28, 0], zrow, zrow, zrow, zrow,
                zrow, zrow, zrow, zrow,
                [11, 12, 13, 14, 15, 16, 17, 18, 0]],
    _currentPlayer := 1, _lastMove := "", _lastCaptured := 0, _winner := -1 }

/-- State for the C10 witness: player 2 to move, with a recorded last move. -/
def c10State : AbstractGame :=
  { _layout := [zrow, zrow, zrow, zrow, zrow, zrow, zrow,
                [0, 0, 0, 0, 21, 0, 0, 0, 0], zrow,
                [0, 0, 0, 0, 11, 0, 0, 0, 0]],
    _currentPlayer := 2, _lastMove := "01e03e", _lastCaptured := 0, _winner := -1 }

/-! ## General lemmas about the embedded operations -/

theorem exists_getElem?_eq {α : Type} (l : List α) (i : Nat) (h : i < l.length) :
    ∃ x, l[i]? = some x ∧ x ∈ l := by
  cases hx : l[i]? with
  | none => exact absurd (List.getElem?_eq_none_iff.mp hx) (by omega)
  | some x => exact ⟨x, rfl, List.getElem?_mem hx⟩

theorem length_setCell (g : List (List Nat)) (r c : Int) (v : Nat) :
    (setCell g r c v).length = g.length := by
  unfold setCell; split <;> simp

theorem wfGrid_setCell {g : List (List Nat)} (h : wfGrid g) (r c : Int) (v : Nat) :
    wfGrid (setCell g r c v) := by
  obtain ⟨hlen, hrows⟩ := h
  unfold setCell
  split
  · by_cases hr : r.toNat < g.length
    · refine ⟨by simpa using hlen, ?_⟩
      intro row hrow
      rcases List.mem_or_eq_of_mem_set hrow with hmem | heq
      · exact hrows row hmem
      · subst heq
        obtain ⟨row, hsome, hmem⟩ := exists_getElem?_eq g r.toNat hr
        rw [hsome]
        simpa using hrows _ hmem
    · rw [List.set_eq_of_length_le (by omega)]
      exact ⟨hlen, hrows⟩
  · exact ⟨hlen, hrows⟩

theorem getCell_setCell_self {g : List (List Nat)} (h : wfGrid g) {r c : Int}
    (hr0 : 0 ≤ r) (hr9 : r ≤ 9) (hc0 : 0 ≤ c) (hc8 : c ≤ 8) (v : Nat) :
    getCell (setCell g r c v) r c = v := by
  obtain ⟨hlen, hrows⟩ := h
  have hrl : r.toNat < g.length := by omega
  obtain ⟨row, hrow, hmem⟩ := exists_getElem?_eq g r.toNat hrl
  have hrow9 : row.length = 9 := hrows _ hmem
  unfold getCell setCell
  rw [if_pos ⟨hr0, hc0⟩, if_pos ⟨hr0, hc0⟩]
  rw [List.getElem?_set, if_pos rfl, if_pos hrl]
  simp only [Option.getD_some]
  rw [hrow]
  simp only [Option.getD_some]
  rw [List.getElem?_set, if_pos rfl, if_pos (by omega)]
  rfl

theorem getCell_setCell_other {g : List (List Nat)} {r c r' c' : Int}
    (hne : ¬(r = r' ∧ c = c')) (hr0 : 0 ≤ r') (hc0 : 0 ≤ c') (v : Nat) :
    getCell (setCell g r c v) r' c' = getCell g r' c' := by
  by_cases hset : 0 ≤ r ∧ 0 ≤ c
  case neg =>
    unfold setCell
    rw [if_neg hset]
  case pos =>
    unfold getCell setCell
    rw [if_pos hset, if_pos ⟨hr0, hc0⟩, if_pos ⟨hr0, hc0⟩]
    rw [List.getElem?_set]
    by_cases hrr : r.toNat = r'.toNat
    · have hreq : r = r' := by omega
      have hcne : c.toNat ≠ c'.toNat := by
        have : ¬ c = c' := fun hcc => hne ⟨hreq, hcc⟩
        omega
      rw [if_pos hrr]
      by_cases hrl : r.toNat < g.length
      · rw [if_pos hrl]
        simp only [Option.getD_some]
        rw [List.getElem?_set, if_neg hcne, hrr]
      · rw [if_neg hrl]
        have hnone : g[r'.toNat]? = none := List.getElem?_eq_none (by omega)
        rw [hnone]
    · rw [if_neg hrr]

theorem grid_eq_of_getCell {g₁ g₂ : List (List Nat)} (h₁ : wfGrid g₁) (h₂ : wfGrid g₂)
    (h : ∀ r c : Int, 0 ≤ r → r ≤ 9 → 0 ≤ c → c ≤ 8 → getCell g₁ r c = getCell g₂ r c) :
    g₁ = g₂ := by
  obtain ⟨hl₁, hr₁⟩ := h₁
  obtain ⟨hl₂, hr₂⟩ := h₂
  apply List.ext_getElem?
  intro n
  by_cases hn : n < 10
  · have hn₁ : n < g₁.length := by omega
    have hn₂ : n < g₂.length := by omega
    obtain ⟨row₁, e₁, m₁⟩ := exists_getElem?_eq g₁ n hn₁
    obtain ⟨row₂, e₂, m₂⟩ := exists_getElem?_eq g₂ n hn₂
    rw [e₁, e₂]
    have hrow₁ : row₁.length = 9 := hr₁ _ m₁
    have hrow₂ : row₂.length = 9 := hr₂ _ m₂
    congr 1
    apply List.ext_getElem?
    intro k
    by_cases hk : k < 9
    · have hcell := h n k (by omega) (by omega) (by omega) (by omega)
      unfold getCell at hcell
      rw [if_pos ⟨by omega, by omega⟩, if_pos ⟨by omega, by omega⟩] at hcell
      have hton : ((n : Int)).toNat = n := by omega
      have htok : ((k : Int)).toNat = k := by omega
      rw [hton, htok, e₁, e₂] at hcell
      simp only [Option.getD_some] at hcell
      obtain ⟨x₁, k₁, mk₁⟩ := exists_getElem?_eq row₁ k (by omega)
      obtain ⟨x₂, k₂, mk₂⟩ := exists_getElem?_eq row₂ k (by omega)
      rw [k₁, k₂] at hcell ⊢
      simp only [Option.getD_some] at hcell
      rw [hcell]
    · rw [List.getElem?_eq_none (by omega), List.getElem?_eq_none (by omega)]
  · rw [List.getElem?_eq_none (by omega), List.getElem?_eq_none (by omega)]

theorem quad_nonpos_bound {a b : Int} (hb : 0 < b) (h : ¬ a * (a - b) > 0) :
    0 ≤ a ∧ a ≤ b := by
  by_contra hc
  push_neg at hc
  apply h
  rcases lt_or_le a 0 with ha | ha
  · have h1 : a - b < 0 := by omega
    exact mul_pos_of_neg_of_neg ha h1
  · have h2 : b < a := hc ha
    have h3 : (0:Int) < a - b := by omega
    exact mul_pos (by omega) h3

theorem validateMove_ok_true_inv {s : AbstractGame} {m : Move}
    (h : AbstractGame.validateMove s m = Except.ok true) :
    (0 ≤ m.sr ∧ m.sr ≤ 9) ∧ (0 ≤ m.er ∧ m.er ≤ 9) ∧
    (0 ≤ m.sc ∧ m.sc ≤ 8) ∧ (0 ≤ m.ec ∧ m.ec ≤ 8) ∧
    (getCell s._layout m.sr m.sc : Int) / 10 = s._currentPlayer ∧
    (getCell s._layout m.er m.ec = 0 ∨
      ¬ (getCell s._layout m.er m.ec : Int) / 10 = s._currentPlayer) ∧
    (¬ m.sr = m.er ∨ ¬ m.sc = m.ec) := by
  unfold AbstractGame.validateMove at h
  split at h
  · exact absurd h (by simp)
  case isFalse hb =>
    push_neg at hb
    obtain ⟨h1, h2, h3, h4⟩ := hb
    split at h
    · exact absurd h (by simp)
    case isFalse hstart =>
      split at h
      · exact absurd h (by simp)
      case isFalse hend =>
        push_neg at hstart
        rw [not_not] at hend
        exact ⟨quad_nonpos_bound (by omega) (by omega), quad_nonpos_bound (by omega) (by omega),
          quad_nonpos_bound (by omega) (by omega), quad_nonpos_bound (by omega) (by omega),
          hstart, hend.1, hend.2⟩

theorem makeMove_applied_inv {s s' : AbstractGame} {moveStr : String}
    (h : AbstractGame.makeMove s moveStr = (s', Outcome.applied)) :
    ∃ m, AbstractGame.interpretMove moveStr = some m ∧
      AbstractGame.validateMove s m = Except.ok true ∧
      s' = { _layout := setCell (setCell s._layout m.er m.ec (getCell s._layout m.sr m.sc))
                m.sr m.sc 0,
             _currentPlayer := AbstractGame.getNextPlayer s,
             _lastMove := moveStr,
             _lastCaptured := getCell s._layout m.er m.ec,
             _winner := s._winner } := by
  unfold AbstractGame.makeMove at h
  cases him : AbstractGame.interpretMove moveStr with
  | none => rw [him] at h; simp at h
  | some m =>
    rw [him] at h
    dsimp only at h
    cases hv : AbstractGame.validateMove s m with
    | error e => rw [hv] at h; simp at h
    | ok b =>
      cases b with
      | false => rw [hv] at h; simp at h
      | true =>
        rw [hv] at h
        simp only [Prod.mk.injEq] at h
        exact ⟨m, rfl, hv, h.1.symm⟩

theorem makeMove_not_applied_eq {s s' : AbstractGame} {moveStr : String} {o : Outcome}
    (h : AbstractGame.makeMove s moveStr = (s', o)) (ho : o ≠ Outcome.applied) :
    s' = s := by
  unfold AbstractGame.makeMove at h
  cases him : AbstractGame.interpretMove moveStr with
  | none => rw [him] at h; simp only [Prod.mk.injEq] at h; exact h.1.symm
  | some m =>
    rw [him] at h
    dsimp only at h
    cases hv : AbstractGame.validateMove s m with
    | error e => rw [hv] at h; simp only [Prod.mk.injEq] at h; exact h.1.symm
    | ok b =>
      cases b with
      | false => rw [hv] at h; simp only [Prod.mk.injEq] at h; exact h.1.symm
      | true =>
        rw [hv] at h
        simp only [Prod.mk.injEq] at h
        exact absurd h.2.symm ho

theorem makeMove_of_validate_false {s : AbstractGame} {moveStr : String} {m : Move}
    (him : AbstractGame.interpretMove moveStr = some m)
    (hv : AbstractGame.validateMove s m = Except.ok false) :
    AbstractGame.makeMove s moveStr = (s, Outcome.rejected) := by
  unfold AbstractGame.makeMove
  rw [him]
  dsimp only
  rw [hv]

theorem makeMove_of_validate_error {s : AbstractGame} {moveStr : String} {m : Move} {e : String}
    (him : AbstractGame.interpretMove moveStr = some m)
    (hv : AbstractGame.validateMove s m = Except.error e) :
    AbstractGame.makeMove s moveStr = (s, Outcome.fault e) := by
  unfold AbstractGame.makeMove
  rw [him]
  dsimp only
  rw [hv]

/-! ## Claim theorems -/

/-- C1.  The claim states that any move whose application would leave the
mover's own King attacked is rejected and never applied by `makeMove`.  The
source contradicts this: `validateMove` carries the king-safety requirement
only in the specification (and the movement rules only in its own comment
block) and returns `true` after the ownership checks.  Concretely, from
`c1Before` Red (player 1) moves its Rook from (5,4) to (5,0) via the notation
`05e05a`; the move is applied, and afterwards the enemy Rook at (0,4) faces
Red's King at (9,4) along column 4 with every square strictly between them
empty — the Rook movement rule of the specification makes this an attack on
the mover's King, i.e. the applied move left the mover in check. -/
theorem c1_move_leaving_own_king_in_check_is_applied :
    (AbstractGame.makeMove c1Before "05e05a").2 = Outcome.applied ∧
    getCell (AbstractGame.makeMove c1Before "05e05a").1._layout 0 4 = 21 ∧
    getCell (AbstractGame.makeMove c1Before "05e05a").1._layout 9 4 = 17 ∧
    getCell (AbstractGame.makeMove c1Before "05e05a").1._layout 1 4 = 0 ∧
    getCell (AbstractGame.makeMove c1Before "05e05a").1._layout 2 4 = 0 ∧
    getCell (AbstractGame.makeMove c1Before "05e05a").1._layout 3 4 = 0 ∧
    getCell (AbstractGame.makeMove c1Before "05e05a").1._layout 4 4 = 0 ∧
    getCell (AbstractGame.makeMove c1Before "05e05a").1._layout 5 4 = 0 ∧
    getCell (AbstractGame.makeMove c1Before "05e05a").1._layout 6 4 = 0 ∧
    getCell (AbstractGame.makeMove c1Before "05e05a").1._layout 7 4 = 0 ∧
    getCell (AbstractGame.makeMove c1Before "05e05a").1._layout 8 4 = 0 := by
  set_option maxRecDepth 8000 in decide

/-- C2.  The claim states that a straight-line Cannon move onto an enemy
piece is legal iff exactly one piece lies strictly between start and end.
The source never implements the screen rule (it exists only in the comment
block of `validateMove`).  Concretely, in `c2Before` the Red Cannon (type 3)
at (5,4) captures the enemy Rook at (2,4) along column 4 with both
intermediate squares, (3,4) and (4,4), empty — zero screens — yet `makeMove`
applies the capture (`_lastCaptured` becomes the enemy Rook 21). -/
theorem c2_cannon_capture_without_screen_is_applied :
    getCell c2Before._layout 5 4 % 10 = 3 ∧
    getCell c2Before._layout 2 4 = 21 ∧
    getCell c2Before._layout 3 4 = 0 ∧
    getCell c2Before._layout 4 4 = 0 ∧
    (AbstractGame.makeMove c2Before "05e08e").2 = Outcome.applied ∧
    (AbstractGame.makeMove c2Before "05e08e").1._lastCaptured = 21 := by
  set_option maxRecDepth 8000 in decide

/-- C3, counterexample.  The claim states that `recallMove` right after an
accepted move restores the grid and the metadata (`currentPlayer`,
`lastMove`, `lastCaptured`) to their exact pre-move values.  It fails when a
move was already recorded before: from `c3Prev` (whose `_lastMove` is
`"01e02e"`), the accepted move `02e03e` followed by `recallMove` yields a
state whose `_lastMove` is `""`, not the pre-move value `"01e02e"`. -/
theorem c3_roundtrip_counterexample :
    (AbstractGame.makeMove c3Prev "02e03e").2 = Outcome.applied ∧
    (AbstractGame.recallMove (AbstractGame.makeMove c3Prev "02e03e").1).1 ≠ c3Prev ∧
    (AbstractGame.recallMove (AbstractGame.makeMove c3Prev "02e03e").1).1._lastMove ≠
      c3Prev._lastMove := by
  decide

/-- C3, amended.  After every accepted move, `recallMove` restores the grid,
`currentPlayer` and `winner` to their exact pre-move values, but sets
`lastMove` to `""` and `lastCaptured` to `0` rather than restoring them; the
full pre-move state is therefore restored exactly when the pre-move state
had no recorded move (`lastMove = ""`, `lastCaptured = 0`), as at the start
of a game or right after an undo.  The well-formedness and player hypotheses
hold in every reachable state (grids are 10x9, players are numbered
from 1). -/
theorem c3_roundtrip_amended (s : AbstractGame) (moveStr : String) (s₁ : AbstractGame)
    (hwf : wfGrid s._layout) (hcp : s._currentPlayer ≠ 0)
    (h : AbstractGame.makeMove s moveStr = (s₁, Outcome.applied)) :
    AbstractGame.recallMove s₁ =
      ({ s with _lastMove := "", _lastCaptured := 0 }, RecallOutcome.undone) := by
  obtain ⟨m, him, hval, hs₁⟩ := makeMove_applied_inv h
  obtain ⟨hsr, her, hsc, hec, hstart, hend, hdiff⟩ := validateMove_ok_true_inv hval
  have hne : moveStr ≠ "" := by
    intro he
    rw [he] at him
    exact Option.noConfusion ((rfl : AbstractGame.interpretMove "" = none) ▸ him)
  cases s with
  | mk gl cp lm lc w =>
  simp only at hwf hcp hstart hend
  subst hs₁
  have hwf1 : wfGrid (setCell gl m.er m.ec (getCell gl m.sr m.sc)) := wfGrid_setCell hwf _ _ _
  have hwf2 : wfGrid (setCell (setCell gl m.er m.ec (getCell gl m.sr m.sc)) m.sr m.sc 0) :=
    wfGrid_setCell hwf1 _ _ _
  have hends : ¬ (m.sr = m.er ∧ m.sc = m.ec) := by
    rcases hdiff with h1 | h1 <;> exact fun hc => h1 (by omega)
  unfold AbstractGame.recallMove
  dsimp only
  rw [if_neg hne, him]
  dsimp only
  have hmid : getCell (setCell (setCell gl m.er m.ec (getCell gl m.sr m.sc)) m.sr m.sc 0)
      m.er m.ec = getCell gl m.sr m.sc := by
    rw [getCell_setCell_other hends (by omega) (by omega)]
    rw [getCell_setCell_self hwf (by omega) (by omega) (by omega) (by omega)]
  have hwf3 : wfGrid (setCell (setCell (setCell gl m.er m.ec (getCell gl m.sr m.sc)) m.sr m.sc 0)
      m.sr m.sc (getCell gl m.sr m.sc)) := wfGrid_setCell hwf2 _ _ _
  have hgrid : setCell (setCell (setCell (setCell gl m.er m.ec (getCell gl m.sr m.sc))
      m.sr m.sc 0) m.sr m.sc
        (getCell (setCell (setCell gl m.er m.ec (getCell gl m.sr m.sc)) m.sr m.sc 0) m.er m.ec))
      m.er m.ec (getCell gl m.er m.ec) = gl := by
    rw [hmid]
    apply grid_eq_of_getCell (wfGrid_setCell hwf3 _ _ _) hwf
    intro r c hr0 hr9 hc0 hc8
    by_cases h1 : m.er = r ∧ m.ec = c
    · obtain ⟨hre, hce⟩ := h1
      subst hre
      subst hce
      rw [getCell_setCell_self hwf3 (by omega) (by omega) (by omega) (by omega)]
    · rw [getCell_setCell_other h1 hr0 hc0]
      by_cases h2 : m.sr = r ∧ m.sc = c
      · obtain ⟨hre, hce⟩ := h2
        subst hre
        subst hce
        rw [getCell_setCell_self hwf2 (by omega) (by omega) (by omega) (by omega)]
      · rw [getCell_setCell_other h2 hr0 hc0]
        rw [getCell_setCell_other h2 hr0 hc0]
        rw [getCell_setCell_other h1 hr0 hc0]
  rw [hgrid]
  have hplayer : (if AbstractGame.getNextPlayer ⟨gl, cp, lm, lc, w⟩ = 1 then 2
      else AbstractGame.getNextPlayer ⟨gl, cp, lm, lc, w⟩ - 1) = cp := by
    unfold AbstractGame.getNextPlayer
    dsimp only
    split_ifs <;> omega
  rw [hplayer]

/-- C3, witness for the amended theorem, at a history-carrying pre-move
state: from `c3Prev` (whose `_lastMove` is `"01e02e"`) the accepted move
`02e03e` followed by `recallMove` restores the grid, `currentPlayer` and
`winner` exactly while clearing `_lastMove` and `_lastCaptured`. -/
theorem c3_roundtrip_amended_witness :
    AbstractGame.recallMove (AbstractGame.makeMove c3Prev "02e03e").1 =
      ({ c3Prev with _lastMove := "", _lastCaptured := 0 }, RecallOutcome.undone) :=
  c3_roundtrip_amended c3Prev "02e03e" (AbstractGame.makeMove c3Prev "02e03e").1
    (by decide) (by decide) (by decide)

/-- C4.  For every move string whose decoded coordinates are in bounds but
which fails validation — the start square is not held by the current player,
or the end square is held by the current player, or start equals end —
`makeMove` returns the state completely unchanged (grid, `currentPlayer`,
`lastMove`, `lastCaptured` and `winner` alike) together with the `rejected`
outcome (the source's "Move not accepted." branch), applying no part of the
move.  The hypothesis `1 ≤ _currentPlayer` holds in every reachable state
(players are numbered 1, 2, 3). -/
theorem c4_invalid_move_rejected_without_mutation (s : AbstractGame) (moveStr : String)
    (m : Move) (him : AbstractGame.interpretMove moveStr = some m)
    (hb : (0 ≤ m.sr ∧ m.sr ≤ 9) ∧ (0 ≤ m.er ∧ m.er ≤ 9) ∧
      (0 ≤ m.sc ∧ m.sc ≤ 8) ∧ (0 ≤ m.ec ∧ m.ec ≤ 8))
    (hcp : 1 ≤ s._currentPlayer)
    (hfail : ¬ (getCell s._layout m.sr m.sc : Int) / 10 = s._currentPlayer ∨
      (getCell s._layout m.er m.ec : Int) / 10 = s._currentPlayer ∨
      (m.sr = m.er ∧ m.sc = m.ec)) :
    AbstractGame.makeMove s moveStr = (s, Outcome.rejected) := by
  apply makeMove_of_validate_false him
  unfold AbstractGame.validateMove
  have hq : ¬ (m.sr * (m.sr - 9) > 0 ∨ m.er * (m.er - 9) > 0 ∨
      m.sc * (m.sc - 8) > 0 ∨ m.ec * (m.ec - 8) > 0) := by
    push_neg
    obtain ⟨⟨h1, h2⟩, ⟨h3, h4⟩, ⟨h5, h6⟩, ⟨h7, h8⟩⟩ := hb
    refine ⟨?_, ?_, ?_, ?_⟩ <;> nlinarith
  rw [if_neg hq]
  by_cases h1 : (getCell s._layout m.sr m.sc : Int) / 10 = s._currentPlayer
  · rw [if_neg (by simpa using h1)]
    rcases hfail with h2 | h2 | h2
    · exact absurd h1 h2
    · have hnz : ¬ getCell s._layout m.er m.ec = 0 := by
        intro h0
        rw [h0] at h2
        norm_num at h2
        omega
      rw [if_pos]
      intro hcon
      rcases hcon.1 with h3 | h3
      · exact hnz h3
      · exact h3 h2
    · rw [if_pos]
      intro hcon
      rcases hcon.2 with h3 | h3
      · exact h3 h2.1
      · exact h3 h2.2
  · rw [if_pos (by simpa using h1)]

/-- C4, witness: from `c4State` the move `10a09a` starts on the empty square
(0,0), which Red does not hold, and is rejected with the state unchanged. -/
theorem c4_invalid_move_rejected_without_mutation_witness :
    AbstractGame.makeMove c4State "10a09a" = (c4State, Outcome.rejected) :=
  c4_invalid_move_rejected_without_mutation c4State "10a09a" ⟨0, 0, 1, 0⟩
    (by decide) (by decide) (by decide) (by decide)

/-- C5.  The claim states that once `_winner` is set, every subsequent
`makeMove` is rejected without mutation.  The source contradicts this:
`makeMove` never consults `_winner`.  Concretely `c5Before` has
`_winner = 1` — `isGameOver` answers `true` — yet the move `01e02e` is
applied and mutates the grid. -/
theorem c5_makeMove_ignores_winner :
    AbstractGame.isGameOver c5Before = true ∧
    (AbstractGame.makeMove c5Before "01e02e").2 = Outcome.applied ∧
    (AbstractGame.makeMove c5Before "01e02e").1._layout ≠ c5Before._layout := by
  decide

/-- C6.  In a 2-player game (current player 1 or 2), every accepted move
flips `currentPlayer` between 1 and 2 (strict alternation), and every move
that is not accepted (rejected or faulting) leaves the whole state — in
particular `currentPlayer` — unchanged. -/
theorem c6_turn_alternation (s : AbstractGame) (moveStr : String)
    (hcp : s._currentPlayer = 1 ∨ s._currentPlayer = 2) :
    ((AbstractGame.makeMove s moveStr).2 = Outcome.applied →
      (AbstractGame.makeMove s moveStr).1._currentPlayer =
        (if s._currentPlayer = 1 then 2 else 1)) ∧
    ((AbstractGame.makeMove s moveStr).2 ≠ Outcome.applied →
      (AbstractGame.makeMove s moveStr).1 = s) := by
  constructor
  · intro ha
    have he : AbstractGame.makeMove s moveStr =
        ((AbstractGame.makeMove s moveStr).1, Outcome.applied) := by
      rw [← ha]
    obtain ⟨m, him, hval, hs'⟩ := makeMove_applied_inv he
    rw [hs']
    unfold AbstractGame.getNextPlayer
    dsimp only
    rcases hcp with h | h <;> rw [h] <;> norm_num
  · intro ho
    have he : AbstractGame.makeMove s moveStr =
        ((AbstractGame.makeMove s moveStr).1, (AbstractGame.makeMove s moveStr).2) := rfl
    exact makeMove_not_applied_eq he ho

/-- C6, witness: from `c6State` (player 1 to move) the accepted move
`02e03e` flips the player to 2, and a rejected move would leave the state
unchanged. -/
theorem c6_turn_alternation_witness :
    ((AbstractGame.makeMove c6State "02e03e").2 = Outcome.applied →
      (AbstractGame.makeMove c6State "02e03e").1._currentPlayer =
        (if c6State._currentPlayer = 1 then 2 else 1)) ∧
    ((AbstractGame.makeMove c6State "02e03e").2 ≠ Outcome.applied →
      (AbstractGame.makeMove c6State "02e03e").1 = c6State) :=
  c6_turn_alternation c6State "02e03e" (Or.inl rfl)

/-- C7.  A six-character move string made of a two-digit rank `r1` (`01`-`10`),
a file letter (uppercase `A`-`I` or lowercase `a`-`i`, i.e. character code
`65 + k` or `97 + k` with `k ≤ 8`), a second two-digit rank `r2` and a second
file letter decodes to internal coordinates `row = 10 - rank` and
`column = letter - 'A'`; the disjunctive letter hypotheses show that
lowercase and uppercase file letters decode to the same coordinates. -/
theorem c7_notation_decoding (mv : String) (c0 c1 c2 c3 c4 c5 : Char) (r1 r2 k1 k2 : Nat)
    (h : mv.toList = [c0, c1, c2, c3, c4, c5])
    (hr1 : 1 ≤ r1 ∧ r1 ≤ 10) (hr2 : 1 ≤ r2 ∧ r2 ≤ 10)
    (hk1 : k1 ≤ 8) (hk2 : k2 ≤ 8)
    (hc0 : c0.toNat = 48 + r1 / 10) (hc1 : c1.toNat = 48 + r1 % 10)
    (hc3 : c3.toNat = 48 + r2 / 10) (hc4 : c4.toNat = 48 + r2 % 10)
    (hc2 : c2.toNat = 65 + k1 ∨ c2.toNat = 97 + k1)
    (hc5 : c5.toNat = 65 + k2 ∨ c5.toNat = 97 + k2) :
    AbstractGame.interpretMove mv =
      some ⟨10 - (r1 : Int), (k1 : Int), 10 - (r2 : Int), (k2 : Int)⟩ := by
  unfold AbstractGame.interpretMove
  rw [h]
  dsimp only
  have e1 : parseInt2 c0 c1 = some r1 := by
    unfold parseInt2 digitVal
    rw [hc0, hc1, if_pos (by omega), if_pos (by omega)]
    dsimp only
    congr 1
    omega
  have e2 : parseInt2 c3 c4 = some r2 := by
    unfold parseInt2 digitVal
    rw [hc3, hc4, if_pos (by omega), if_pos (by omega)]
    dsimp only
    congr 1
    omega
  rw [e1, e2]
  dsimp only
  congr 1
  have u1 : (upperCode c2.toNat : Int) - 65 = (k1 : Int) := by
    unfold upperCode
    rcases hc2 with hu | hl
    · rw [hu, if_neg (by omega)]
      omega
    · rw [hl, if_pos (by omega)]
      omega
  have u2 : (upperCode c5.toNat : Int) - 65 = (k2 : Int) := by
    unfold upperCode
    rcases hc5 with hu | hl
    · rw [hu, if_neg (by omega)]
      omega
    · rw [hl, if_pos (by omega)]
      omega
  rw [u1, u2]

/-- C7, witness: the specification's own example `03h03e` (rank 3 file H to
rank 3 file E, lowercase letters) decodes to rows `10 - 3 = 7` and columns
`7` (`h`) and `4` (`e`). -/
theorem c7_notation_decoding_witness :
    AbstractGame.interpretMove "03h03e" =
      some ⟨10 - ((3 : Nat) : Int), ((7 : Nat) : Int), 10 - ((3 : Nat) : Int), ((4 : Nat) : Int)⟩ :=
  c7_notation_decoding "03h03e" '0' '3' 'h' '0' '3' 'e' 3 3 7 4 (by decide)
    (by decide) (by decide) (by decide) (by decide) (by decide) (by decide)
    (by decide) (by decide) (by decide) (by decide)

/-- C8.  A decodable move string whose coordinates fall outside rows 0-9 or
columns 0-8 makes `makeMove` return the state completely unchanged together
with a `fault` outcome carrying the `Illegal Move: Array Notation` message —
the typed result modelling the `Error` the source throws at the call
boundary — which is distinct from the ordinary illegal-move rejection
(`rejected`) and from `applied`. -/
theorem c8_out_of_bounds_fault (s : AbstractGame) (moveStr : String) (m : Move)
    (him : AbstractGame.interpretMove moveStr = some m)
    (hoob : m.sr < 0 ∨ 9 < m.sr ∨ m.er < 0 ∨ 9 < m.er ∨
      m.sc < 0 ∨ 8 < m.sc ∨ m.ec < 0 ∨ 8 < m.ec) :
    AbstractGame.makeMove s moveStr = (s, Outcome.fault (AbstractGame.oobMsg m)) ∧
    Outcome.fault (AbstractGame.oobMsg m) ≠ Outcome.rejected ∧
    Outcome.fault (AbstractGame.oobMsg m) ≠ Outcome.applied := by
  refine ⟨?_, by simp, by simp⟩
  apply makeMove_of_validate_error him
  unfold AbstractGame.validateMove
  rw [if_pos]
  rcases hoob with h | h | h | h | h | h | h | h
  · exact Or.inl (by nlinarith)
  · exact Or.inl (by nlinarith)
  · exact Or.inr (Or.inl (by nlinarith))
  · exact Or.inr (Or.inl (by nlinarith))
  · exact Or.inr (Or.inr (Or.inl (by nlinarith)))
  · exact Or.inr (Or.inr (Or.inl (by nlinarith)))
  · exact Or.inr (Or.inr (Or.inr (by nlinarith)))
  · exact Or.inr (Or.inr (Or.inr (by nlinarith)))

/-- C8, witness: `12a01a` decodes to start row `10 - 12 = -2`, outside the
grid; `makeMove` on `c8State` faults with the bounds message and the state
unchanged. -/
theorem c8_out_of_bounds_fault_witness :
    AbstractGame.makeMove c8State "12a01a" =
      (c8State, Outcome.fault (AbstractGame.oobMsg ⟨-2, 0, 9, 0⟩)) ∧
    Outcome.fault (AbstractGame.oobMsg ⟨-2, 0, 9, 0⟩) ≠ Outcome.rejected ∧
    Outcome.fault (AbstractGame.oobMsg ⟨-2, 0, 9, 0⟩) ≠ Outcome.applied :=
  c8_out_of_bounds_fault c8State "12a01a" ⟨-2, 0, 9, 0⟩ (by decide) (by decide)

theorem charAt_types_eq_specTypeLetter (t : Nat) (ht : t ≤ 8) :
    charAt _types t = specTypeLetter t := by
  interval_cases t <;> decide

theorem renderCell_eq_specCell (v : Nat) (h : validEncoding v) :
    AbstractGame.renderCell v = specCell v := by
  have ht : v % 10 ≤ 8 := by
    rcases h with h0 | ⟨h1, h2⟩
    · omega
    · exact h2
  unfold AbstractGame.renderCell specCell
  rw [charAt_types_eq_specTypeLetter (v % 10) ht]

theorem renderRow_eq_specRankLine (i : Nat) (row : List Nat) (hi10 : i < 10)
    (hrowv : ∀ v ∈ row, validEncoding v) :
    AbstractGame.renderRow i row = specRankLine (10 - i) row := by
  unfold AbstractGame.renderRow specRankLine
  have hlabel : (if i = 0 then " " else " 0") = (if 10 - i = 10 then " " else " 0") := by
    by_cases h0 : i = 0
    · rw [if_pos h0, if_pos (by omega)]
    · rw [if_neg h0, if_neg (by omega)]
  have hcells : (List.range 9).map (fun j => AbstractGame.renderCell (row[j]?.getD 0)) =
      (List.range 9).map (fun j => specCell (row[j]?.getD 0)) := by
    apply List.map_congr_left
    intro j hj
    apply renderCell_eq_specCell
    by_cases hjr : j < row.length
    · obtain ⟨x, hsome, hmem⟩ := exists_getElem?_eq row j hjr
      rw [hsome]
      exact hrowv _ hmem
    · rw [List.getElem?_eq_none (by omega)]
      exact Or.inl rfl
  rw [hlabel, hcells]

/-- C9.  On every well-formed board whose cells are valid piece encodings,
`toString` produces exactly the dump described by the specification: ranks
listed descending from 10 to 1 (internal row `i` printed as rank `10 - i`),
then the file-letter line `A`-`I`; every occupied square is printed as its
team digit followed by its type letter per the table `R,N,C,G,E,P,K,S` for
types 1-8, and a team-0 (empty) square carries the `-` placeholder in the
team-digit position (its type position, `charAt` of type `0`, is the
placeholder as well — column alignment being an implementation choice per
§6 of the specification). -/
theorem c9_toString_matches_spec_dump (s : AbstractGame) (hwf : wfGrid s._layout)
    (hv : ∀ row ∈ s._layout, ∀ v ∈ row, validEncoding v) :
    AbstractGame.toString s = specBoardDump s := by
  unfold AbstractGame.toString specBoardDump
  have hrows : (List.range 10).map (fun i => AbstractGame.renderRow i (s._layout[i]?.getD [])) =
      (List.range 10).map (fun i => specRankLine (10 - i) (s._layout[i]?.getD [])) := by
    apply List.map_congr_left
    intro i hi
    have hi10 : i < 10 := List.mem_range.mp hi
    apply renderRow_eq_specRankLine i _ hi10
    obtain ⟨hlen, _⟩ := hwf
    obtain ⟨row, hsome, hmem⟩ := exists_getElem?_eq s._layout i (by omega)
    rw [hsome]
    intro v hvmem
    exact hv _ hmem v hvmem
  rw [hrows]

/-- C9, witness: on `c9State`, which holds one piece of every type of both
teams, the dump of the source equals the specification's dump. -/
theorem c9_toString_matches_spec_dump_witness :
    AbstractGame.toString c9State = specBoardDump c9State :=
  c9_toString_matches_spec_dump c9State (by decide) (by decide)

/-- C10.  `getNextPlayer` returns 1 when the current player is 2 and
`currentPlayer + 1` otherwise; `recallMove` (when it undoes a recorded,
decodable move) rewinds the player to 2 when it is 1 and to
`currentPlayer - 1` otherwise; consequently from a 2-player state (player 1
or 2) the next player is again 1 or 2 — and an accepted move by player 2
always hands the turn to player 1, never to a player 3. -/
theorem c10_two_player_rotation (s : AbstractGame) (moveStr : String) (m : Move) :
    AbstractGame.getNextPlayer s =
      (if s._currentPlayer = 2 then 1 else s._currentPlayer + 1) ∧
    (s._currentPlayer = 2 → AbstractGame.getNextPlayer s = 1) ∧
    ((s._currentPlayer = 1 ∨ s._currentPlayer = 2) →
      AbstractGame.getNextPlayer s = 1 ∨ AbstractGame.getNextPlayer s = 2) ∧
    (¬ s._lastMove = "" → AbstractGame.interpretMove s._lastMove = some m →
      (AbstractGame.recallMove s).1._currentPlayer =
        (if s._currentPlayer = 1 then 2 else s._currentPlayer - 1)) ∧
    (s._currentPlayer = 2 → (AbstractGame.makeMove s moveStr).2 = Outcome.applied →
      (AbstractGame.makeMove s moveStr).1._currentPlayer = 1) := by
  refine ⟨rfl, ?_, ?_, ?_, ?_⟩
  · intro h2
    unfold AbstractGame.getNextPlayer
    rw [if_pos h2]
  · intro hcp
    unfold AbstractGame.getNextPlayer
    rcases hcp with h | h <;> rw [h] <;> norm_num
  · intro hlm him
    unfold AbstractGame.recallMove
    rw [if_neg hlm, him]
  · intro h2 ha
    have he : AbstractGame.makeMove s moveStr =
        ((AbstractGame.makeMove s moveStr).1, Outcome.applied) := by rw [← ha]
    obtain ⟨m', him', hval', hs'⟩ := makeMove_applied_inv he
    rw [hs']
    unfold AbstractGame.getNextPlayer
    dsimp only
    rw [if_pos h2]

/-- C10, witness: in `c10State` player 2 is to move with `01e03e` recorded;
the next player is 1, undoing rewinds the player to 1, and the accepted move
`03e04e` by player 2 hands the turn to player 1. -/
theorem c10_two_player_rotation_witness :
    AbstractGame.getNextPlayer c10State = 1 ∧
    (AbstractGame.recallMove c10State).1._currentPlayer = 1 ∧
    (AbstractGame.makeMove c10State "03e04e").1._currentPlayer = 1 := by
  have h := c10_two_player_rotation c10State "03e04e" ⟨9, 4, 7, 4⟩
  refine ⟨h.2.1 rfl, ?_, h.2.2.2.2 rfl (by decide)⟩
  have h4 := h.2.2.2.1 (by decide) (by decide)
  rw [h4]
  decide
